import Mathlib

/-
Verification of the multi-segment pipeline traversal model implemented in
src/flow_model.py.

Embedding conventions:
* Python floats are idealized as exact numbers: the corrosion computation
  (which only uses rational arithmetic) is embedded over ℚ so that concrete
  instances are decidable; the velocity computation (which uses the
  transcendental powers D ** 2.63 and S ** 0.54 and pi) is embedded over ℝ.
* Python's built-in round(x, n) rounds to the nearest multiple of 10 ^ (-n),
  resolving ties towards an even last digit; pyRoundHalfEvenQ / pyRoundHalfEvenR
  model this on exact numbers.
* A Python function that can raise an exception is embedded with an Option
  result, none standing for the raised exception.  In calculate_velocity:
  for slope < 0 the expression slope ** 0.54 produces a complex number in
  Python 3 (negative base, fractional exponent) and round(V, 2) then raises
  TypeError; for diameter < 0 the same happens with diameter ** 2.63; for
  diameter = 0 the cross-sectional area A is 0.0 and V = Q / A raises
  ZeroDivisionError.  Only slope = 0 is guarded by the source itself.
* The travel-time accumulator is embedded in EReal because the source uses
  the sentinel float('inf') for an untraversable segment.
-/

/-- The ROUGHNESS_COEFFICIENTS dict of flow_model.py (lines 6-15):
Hazen-Williams C factor per pipe material. -/
def ROUGHNESS_COEFFICIENTS : List (String × ℝ) :=
  [("Cast Iron", 100), ("Ductile Iron", 110), ("Steel", 120), ("Galvanized Steel", 110),
   ("Stainless Steel", 140), ("Copper", 150), ("PVC/Plastic", 155), ("Concrete", 120)]

/-- The CORROSION_RATES dict of flow_model.py (lines 17-27): mm/year per material. -/
def CORROSION_RATES : List (String × ℚ) :=
  [("Cast Iron", 1/10), ("Ductile Iron", 1/20), ("Steel", 1/5), ("Galvanized Steel", 3/20),
   ("Stainless Steel", 1/50), ("Copper", 1/100), ("PVC/Plastic", 0), ("Concrete", 1/200)]

/-- Python dict.get(key, dflt) over an association list. -/
def dictGet {α : Type} (table : List (String × α)) (key : String) (dflt : α) : α :=
  ((table.find? (fun p => p.1 == key)).map Prod.snd).getD dflt

/-- Python 3 round-half-to-even of an exact rational to an integer. -/
def pyRoundHalfEvenQ (x : ℚ) : ℤ :=
  if Int.fract x < 1/2 then ⌊x⌋
  else if 1/2 < Int.fract x then ⌊x⌋ + 1
  else if Even ⌊x⌋ then ⌊x⌋ else ⌊x⌋ + 1

/-- Python round(x, ndigits) on an exact rational. -/
def pyRoundQ (ndigits : ℕ) (x : ℚ) : ℚ :=
  (pyRoundHalfEvenQ (x * 10 ^ ndigits) : ℚ) / 10 ^ ndigits

/-- Python 3 round-half-to-even of a real number to an integer
(IEEE doubles idealized as exact reals). -/
noncomputable def pyRoundHalfEvenR (x : ℝ) : ℤ :=
  if Int.fract x < 1/2 then ⌊x⌋
  else if 1/2 < Int.fract x then ⌊x⌋ + 1
  else if Even ⌊x⌋ then ⌊x⌋ else ⌊x⌋ + 1

/-- Python round(x, ndigits) on a real number. -/
noncomputable def pyRoundR (ndigits : ℕ) (x : ℝ) : ℝ :=
  (pyRoundHalfEvenR (x * 10 ^ ndigits) : ℝ) / 10 ^ ndigits

/-- calculate_velocity of flow_model.py (lines 29-45).  Returns some v for a
normal return and none when Python raises (see the embedding conventions
above: slope < 0 and diameter < 0 end in a TypeError when round is applied
to a complex V, diameter = 0 with slope not 0 ends in a ZeroDivisionError). -/
noncomputable def calculate_velocity (diameter slope roughness : ℝ) : Option ℝ :=
  if slope = 0 then some 0
  else if slope < 0 then none
  else if diameter ≤ 0 then none
  else
    some (pyRoundR 2 ((roughness * diameter ^ (2.63 : ℝ) * slope ^ (0.54 : ℝ) / 278.5) /
      (Real.pi * (diameter / 2) ^ 2)))

/-- calculate_pipe_diameter_reduction of flow_model.py (lines 47-53). -/
def calculate_pipe_diameter_reduction (material : String) (age initial_diameter : ℚ) : ℚ :=
  let corrosion_rate := dictGet CORROSION_RATES material (1/10) / 1000
  let diameter_loss := 2 * (corrosion_rate * age)
  let reduced_diameter := max (initial_diameter - diameter_loss) (1/100)
  pyRoundQ 4 reduced_diameter

/-- The full-precision Hazen-Williams velocity following the words of spec
section 4.3 (flowRate = C * D^2.63 * S^0.54 / 278.5 divided by the cross
section pi * (D/2)^2), stated separately to compare the implementation
against it in the refinement claim C6. -/
noncomputable def specFullPrecisionVelocity (diameter slope roughness : ℝ) : ℝ :=
  (roughness * diameter ^ (2.63 : ℝ) * slope ^ (0.54 : ℝ) / 278.5) /
    (Real.pi * (diameter / 2) ^ 2)

/-- The record written out by main (flow_model.py lines 125-133), minus the
wall-clock timestamp, which is I/O. -/
structure TraversalResult where
  pipe_material : String
  pipe_age : ℚ
  initial_diameter_meters : ℚ
  reduced_diameter_meters : ℚ
  total_distance_meters : ℝ
  travel_time_seconds : EReal

/-- The slope loop of main (flow_model.py lines 109-113): one step per
(slope, slope_distance) pair, computing the segment velocity and adding
slope_distance / velocity when velocity > 0 and float('inf') otherwise.
A none velocity (raised exception) aborts the whole loop. -/
noncomputable def accumulate_segments (diameter roughness : ℝ) :
    List (ℝ × ℝ) → EReal → Option EReal
  | [], acc => some acc
  | seg :: rest, acc =>
    match calculate_velocity diameter seg.1 roughness with
    | none => none
    | some velocity =>
      accumulate_segments diameter roughness rest
        (acc + (if 0 < velocity then (((seg.2 / velocity : ℝ)) : EReal) else (⊤ : EReal)))

/-- The segment time contributed by one (slope, slope_distance) pair whose
velocity computation succeeds (flow_model.py line 111); junk value 0 when the
velocity computation raises. -/
noncomputable def segment_time (diameter roughness : ℝ) (seg : ℝ × ℝ) : EReal :=
  match calculate_velocity diameter seg.1 roughness with
  | none => 0
  | some velocity => if 0 < velocity then (((seg.2 / velocity : ℝ)) : EReal) else (⊤ : EReal)

/-- The pump loop of main (flow_model.py lines 115-116): for each
(pump_flowrate, pump_position) pair, in input order, subtract the flow rate
from the running total time. -/
noncomputable def apply_pumps (total_time : EReal) (pumps : List (ℝ × ℝ)) : EReal :=
  pumps.foldl (fun t pump => t - ((pump.1 : ℝ) : EReal)) total_time

/-- main of flow_model.py (lines 98-137) with the interactive input and the
file output stripped off: takes the already-collected inputs, returns the
TraversalResult record that main prints and appends to the log.  slopes[0]
on an empty slope list raises an IndexError (line 107), hence none; the
velocity computed on line 107 is dead apart from the exceptions it can
raise, hence the match that ignores the some payload.  The running
remaining_distance variable is dead code (never read after the loop) and is
not modelled. -/
noncomputable def main (material : String) (age initial_diameter : ℚ)
    (total_distance : ℝ) (slopes pumps : List (ℝ × ℝ)) : Option TraversalResult :=
  let reduced_diameter := calculate_pipe_diameter_reduction material age initial_diameter
  let roughness := dictGet ROUGHNESS_COEFFICIENTS material 100
  match slopes with
  | [] => none
  | seg0 :: _ =>
    match calculate_velocity (reduced_diameter : ℝ) seg0.1 roughness with
    | none => none
    | some _ =>
      match accumulate_segments (reduced_diameter : ℝ) roughness slopes ((0 : ℝ) : EReal) with
      | none => none
      | some total0 =>
        some { pipe_material := material, pipe_age := age,
               initial_diameter_meters := initial_diameter,
               reduced_diameter_meters := reduced_diameter,
               total_distance_meters := total_distance,
               travel_time_seconds := apply_pumps total0 pumps }

/-! ## Helper lemmas -/

theorem pyRoundHalfEvenQ_le (x : ℚ) : (pyRoundHalfEvenQ x : ℚ) ≤ x + 1/2 := by
  have hf : Int.fract x = x - ⌊x⌋ := rfl
  have h0 := Int.fract_nonneg x
  have h1 := Int.fract_lt_one x
  unfold pyRoundHalfEvenQ
  split_ifs <;> push_cast <;> linarith
theorem pyRoundHalfEvenQ_ge (x : ℚ) : x - 1/2 ≤ (pyRoundHalfEvenQ x : ℚ) := by
  have hf : Int.fract x = x - ⌊x⌋ := rfl
  have h0 := Int.fract_nonneg x
  have h1 := Int.fract_lt_one x
  unfold pyRoundHalfEvenQ
  split_ifs <;> push_cast <;> linarith
theorem pyRoundHalfEvenQ_floor_le (x : ℚ) : ⌊x⌋ ≤ pyRoundHalfEvenQ x := by
  unfold pyRoundHalfEvenQ
  split_ifs <;> omega
theorem pyRoundHalfEvenR_le (x : ℝ) : (pyRoundHalfEvenR x : ℝ) ≤ x + 1/2 := by
  have hf : Int.fract x = x - ⌊x⌋ := rfl
  have h0 := Int.fract_nonneg x
  have h1 := Int.fract_lt_one x
  unfold pyRoundHalfEvenR
  split_ifs <;> push_cast <;> linarith
theorem pyRoundHalfEvenR_ge (x : ℝ) : x - 1/2 ≤ (pyRoundHalfEvenR x : ℝ) := by
  have hf : Int.fract x = x - ⌊x⌋ := rfl
  have h0 := Int.fract_nonneg x
  have h1 := Int.fract_lt_one x
  unfold pyRoundHalfEvenR
  split_ifs <;> push_cast <;> linarith
theorem pyRoundHalfEvenR_floor_le (x : ℝ) : ⌊x⌋ ≤ pyRoundHalfEvenR x := by
  unfold pyRoundHalfEvenR
  split_ifs <;> omega
theorem pyRoundHalfEvenR_le_floor_add_one (x : ℝ) : pyRoundHalfEvenR x ≤ ⌊x⌋ + 1 := by
  unfold pyRoundHalfEvenR
  split_ifs <;> omega
theorem pyRoundHalfEvenR_mono {x y : ℝ} (h : x ≤ y) : pyRoundHalfEvenR x ≤ pyRoundHalfEvenR y := by
  rcases lt_or_le ⌊x⌋ ⌊y⌋ with hfl | hfl
  · calc pyRoundHalfEvenR x ≤ ⌊x⌋ + 1 := pyRoundHalfEvenR_le_floor_add_one x
    _ ≤ ⌊y⌋ := by omega
    _ ≤ pyRoundHalfEvenR y := pyRoundHalfEvenR_floor_le y
  · have hfl2 : ⌊x⌋ = ⌊y⌋ := le_antisymm (Int.floor_le_floor h) hfl
    have hfr : Int.fract x ≤ Int.fract y := by
      have hx : Int.fract x = x - ⌊x⌋ := rfl
      have hy : Int.fract y = y - ⌊y⌋ := rfl
      rw [hx, hy, hfl2]
      linarith
    unfold pyRoundHalfEvenR
    rw [hfl2]
    split_ifs with a1 a2 a3 b1 b2 b3 <;> try omega
    all_goals (exfalso; linarith)
theorem pyRoundHalfEvenQ_le_floor_add_one (x : ℚ) : pyRoundHalfEvenQ x ≤ ⌊x⌋ + 1 := by
  unfold pyRoundHalfEvenQ
  split_ifs <;> omega

-- EReal helpers
theorem ereal_sub_sub (t : EReal) (a b : ℝ) : t - ↑a - ↑b = t - ↑(a + b) := by
  induction t using EReal.rec with
  | h_bot => rw [EReal.bot_sub, EReal.bot_sub, EReal.bot_sub]
  | h_real x =>
    rw [← EReal.coe_sub, ← EReal.coe_sub, ← EReal.coe_sub, EReal.coe_eq_coe_iff]
    ring
  | h_top => rw [EReal.top_sub_coe, EReal.top_sub_coe, EReal.top_sub_coe]

theorem apply_pumps_eq_sub (pumps : List (ℝ × ℝ)) : ∀ t : EReal,
    apply_pumps t pumps = t - ((pumps.map Prod.fst).sum : ℝ) := by
  induction pumps with
  | nil =>
    intro t
    show t = t - ((0:ℝ) : EReal)
    rw [EReal.coe_zero, sub_zero]
  | cons p ps ih =>
    intro t
    show apply_pumps (t - (p.1 : ℝ)) ps = _
    rw [ih, ereal_sub_sub, List.map_cons, List.sum_cons]

theorem segment_time_ne_bot (diameter roughness : ℝ) (seg : ℝ × ℝ) :
    segment_time diameter roughness seg ≠ ⊥ := by
  unfold segment_time
  cases calculate_velocity diameter seg.1 roughness with
  | none => simp
  | some v =>
    dsimp only
    split_ifs
    · exact EReal.coe_ne_bot _
    · simp

theorem ereal_sum_ne_bot (l : List EReal) (h : ∀ x ∈ l, x ≠ ⊥) : l.sum ≠ ⊥ := by
  induction l with
  | nil => simp
  | cons a as ih =>
    rw [List.sum_cons]
    have ha : a ≠ ⊥ := h a (List.mem_cons_self a as)
    have has : as.sum ≠ ⊥ := ih (fun x hx => h x (List.mem_cons_of_mem a hx))
    intro hc
    rcases EReal.add_eq_bot_iff.mp hc with h1 | h1
    · exact ha h1
    · exact has h1

theorem ereal_sum_eq_top (l : List EReal) (hmem : ⊤ ∈ l) (h : ∀ x ∈ l, x ≠ ⊥) :
    l.sum = ⊤ := by
  induction l with
  | nil => simp at hmem
  | cons a as ih =>
    rw [List.sum_cons]
    rcases List.mem_cons.mp hmem with h1 | h1
    · rw [← h1]
      exact EReal.top_add_of_ne_bot (ereal_sum_ne_bot as (fun x hx => h x (List.mem_cons_of_mem a hx)))
    · rw [ih h1 (fun x hx => h x (List.mem_cons_of_mem a hx))]
      exact EReal.add_top_of_ne_bot (h a (List.mem_cons_self a as))

theorem accumulate_segments_eq (diameter roughness : ℝ) (slopes : List (ℝ × ℝ)) :
    ∀ acc : EReal, (∀ seg ∈ slopes, (calculate_velocity diameter seg.1 roughness).isSome) →
    accumulate_segments diameter roughness slopes acc =
      some (acc + (slopes.map (segment_time diameter roughness)).sum) := by
  induction slopes with
  | nil =>
    intro acc _
    simp [accumulate_segments]
  | cons seg rest ih =>
    intro acc hs
    have hseg := hs seg (List.mem_cons_self seg rest)
    rcases Option.isSome_iff_exists.mp hseg with ⟨v, hv⟩
    have hst : segment_time diameter roughness seg =
        (if 0 < v then (((seg.2 / v : ℝ)) : EReal) else (⊤ : EReal)) := by
      unfold segment_time
      rw [hv]
    rw [accumulate_segments, hv]
    dsimp only
    rw [ih _ (fun s hsmem => hs s (List.mem_cons_of_mem seg hsmem))]
    rw [List.map_cons, List.sum_cons, hst, add_assoc]

theorem calculate_velocity_of_pos (diameter slope roughness : ℝ)
    (hd : 0 < diameter) (hs : 0 < slope) :
    calculate_velocity diameter slope roughness =
      some (pyRoundR 2 (specFullPrecisionVelocity diameter slope roughness)) := by
  rw [calculate_velocity, if_neg hs.ne', if_neg (not_lt.mpr hs.le), if_neg (not_le.mpr hd)]
  rfl

theorem calculate_velocity_isSome (diameter slope roughness : ℝ)
    (hd : 0 < diameter) (hs : 0 ≤ slope) :
    (calculate_velocity diameter slope roughness).isSome := by
  rcases eq_or_lt_of_le hs with h | h
  · rw [calculate_velocity, if_pos h.symm]
    rfl
  · rw [calculate_velocity_of_pos diameter slope roughness hd h]
    rfl

theorem pyRoundHalfEvenR_eq_of_lt_half (x : ℝ) (n : ℤ) (h1 : (n:ℝ) ≤ x) (h2 : x < n + 1/2) :
    pyRoundHalfEvenR x = n := by
  have hfl : ⌊x⌋ = n := Int.floor_eq_iff.mpr ⟨h1, by push_cast; linarith⟩
  have hfr : Int.fract x < 1/2 := by
    have : Int.fract x = x - ⌊x⌋ := rfl
    rw [this, hfl]
    linarith
  rw [pyRoundHalfEvenR, if_pos hfr, hfl]

theorem pyRoundHalfEvenR_eq_of_half_lt (x : ℝ) (n : ℤ) (h1 : (n:ℝ) + 1/2 < x) (h2 : x < n + 1) :
    pyRoundHalfEvenR x = n + 1 := by
  have hfl : ⌊x⌋ = n := Int.floor_eq_iff.mpr ⟨by linarith, by push_cast; linarith⟩
  have hfr : 1/2 < Int.fract x := by
    have : Int.fract x = x - ⌊x⌋ := rfl
    rw [this, hfl]
    linarith
  rw [pyRoundHalfEvenR, if_neg (by linarith), if_pos hfr, hfl]

theorem spec_velocity_1_1_120 : specFullPrecisionVelocity 1 1 120 = 480 / (278.5 * Real.pi) := by
  unfold specFullPrecisionVelocity
  rw [Real.one_rpow, Real.one_rpow]
  have hpi := Real.pi_pos
  rw [div_eq_div_iff (by positivity) (by positivity)]
  ring

theorem round_velocity_1_1_120 : pyRoundR 2 (specFullPrecisionVelocity 1 1 120) = 11/20 := by
  rw [spec_velocity_1_1_120, pyRoundR]
  have hpi1 : (3.141592 : ℝ) < Real.pi := Real.pi_gt_d6
  have hpi2 : Real.pi < (3.15 : ℝ) := Real.pi_lt_d2
  have hpos : (0:ℝ) < 278.5 * Real.pi := by nlinarith
  have hval : (54:ℝ) + 1/2 < 480 / (278.5 * Real.pi) * 10 ^ 2 := by
    rw [div_mul_eq_mul_div, lt_div_iff hpos]
    nlinarith
  have hval2 : 480 / (278.5 * Real.pi) * 10 ^ 2 < (54:ℤ) + 1 := by
    rw [div_mul_eq_mul_div, div_lt_iff hpos]
    push_cast
    nlinarith
  rw [pyRoundHalfEvenR_eq_of_half_lt _ 54 hval (by exact_mod_cast hval2)]
  norm_num

theorem calculate_velocity_1_1_120 : calculate_velocity 1 1 120 = some (11/20) := by
  rw [calculate_velocity_of_pos 1 1 120 one_pos one_pos, round_velocity_1_1_120]

theorem pyRoundR_eq_zero (x : ℝ) (h0 : 0 ≤ x) (h : x < 1/200) : pyRoundR 2 x = 0 := by
  rw [pyRoundR, pyRoundHalfEvenR_eq_of_lt_half (x * 10 ^ 2) 0 (by push_cast; nlinarith) (by push_cast; nlinarith)]
  norm_num

theorem spec_velocity_nonneg (diameter slope roughness : ℝ) (hd : 0 ≤ diameter)
    (hs : 0 ≤ slope) (hC : 0 ≤ roughness) :
    0 ≤ specFullPrecisionVelocity diameter slope roughness := by
  unfold specFullPrecisionVelocity
  apply div_nonneg
  · apply div_nonneg
    · exact mul_nonneg (mul_nonneg hC (Real.rpow_nonneg hd _)) (Real.rpow_nonneg hs _)
    · norm_num
  · exact mul_nonneg Real.pi_pos.le (sq_nonneg _)

theorem spec_velocity_small (s : ℝ) (h0 : 0 < s) (h1 : s ≤ 4/1000000) :
    specFullPrecisionVelocity 1 s 120 < 1/200 := by
  unfold specFullPrecisionVelocity
  rw [Real.one_rpow]
  have hs1 : s ≤ 1 := by linarith
  have hA0 : 0 ≤ s ^ (0.54:ℝ) := Real.rpow_nonneg h0.le _
  have hA : s ^ (0.54:ℝ) ≤ 2/1000 := by
    calc s ^ (0.54:ℝ) ≤ s ^ ((1:ℝ)/2) :=
          Real.rpow_le_rpow_of_exponent_ge h0 hs1 (by norm_num)
    _ ≤ (4/1000000 : ℝ) ^ ((1:ℝ)/2) := Real.rpow_le_rpow h0.le h1 (by norm_num)
    _ = 2/1000 := by
        rw [show (4/1000000 : ℝ) = (2/1000)^(2:ℕ) by norm_num,
          ← Real.rpow_natCast (2/1000 : ℝ) 2,
          ← Real.rpow_mul (by norm_num : (0:ℝ) ≤ 2/1000)]
        norm_num
  have hpi := Real.pi_gt_three
  have hdenpos : 0 < Real.pi * ((1:ℝ)/2)^2 := by positivity
  rw [div_lt_iff hdenpos, show (278.5:ℝ) = 557/2 by norm_num]
  linarith [hA, hpi]

theorem calculate_velocity_small (s : ℝ) (h0 : 0 < s) (h1 : s ≤ 4/1000000) :
    calculate_velocity 1 s 120 = some 0 := by
  rw [calculate_velocity_of_pos 1 s 120 one_pos h0,
    pyRoundR_eq_zero _ (spec_velocity_nonneg 1 s 120 (by norm_num) h0.le (by norm_num))
      (spec_velocity_small s h0 h1)]

theorem pyRoundR_mono (n : ℕ) {x y : ℝ} (h : x ≤ y) : pyRoundR n x ≤ pyRoundR n y := by
  rw [pyRoundR, pyRoundR]
  have hmul : x * 10 ^ n ≤ y * 10 ^ n := by
    apply mul_le_mul_of_nonneg_right h (by positivity)
  have := pyRoundHalfEvenR_mono hmul
  have hcast : (pyRoundHalfEvenR (x * 10 ^ n) : ℝ) ≤ (pyRoundHalfEvenR (y * 10 ^ n) : ℝ) := by
    exact_mod_cast this
  exact (div_le_div_right (by norm_num)).mpr hcast

/-! ## Lookup and corrosion bounds -/

theorem corrosion_rate_nonneg (material : String) :
    0 ≤ dictGet CORROSION_RATES material (1/10) := by
  unfold dictGet
  cases h : CORROSION_RATES.find? (fun p => p.1 == material) with
  | none => norm_num
  | some p =>
    have hmem := List.mem_of_find?_eq_some h
    simp only [Option.map_some', Option.getD_some]
    simp only [CORROSION_RATES, List.mem_cons, List.not_mem_nil, or_false] at hmem
    rcases hmem with rfl | rfl | rfl | rfl | rfl | rfl | rfl | rfl <;> norm_num

theorem reduction_ge (material : String) (age initial_diameter : ℚ) :
    1/100 ≤ calculate_pipe_diameter_reduction material age initial_diameter := by
  unfold calculate_pipe_diameter_reduction pyRoundQ
  have hx : (1/100 : ℚ) ≤
      max (initial_diameter - 2 * (dictGet CORROSION_RATES material (1/10) / 1000 * age)) (1/100) :=
    le_max_right _ _
  have hfloor : (100:ℤ) ≤
      ⌊(max (initial_diameter - 2 * (dictGet CORROSION_RATES material (1/10) / 1000 * age)) (1/100)) * 10 ^ 4⌋ := by
    apply Int.le_floor.mpr
    push_cast
    linarith
  have hrhe := pyRoundHalfEvenQ_floor_le
    ((max (initial_diameter - 2 * (dictGet CORROSION_RATES material (1/10) / 1000 * age)) (1/100)) * 10 ^ 4)
  rw [le_div_iff (by norm_num : (0:ℚ) < 10 ^ 4)]
  have : (100:ℚ) ≤ (pyRoundHalfEvenQ
      ((max (initial_diameter - 2 * (dictGet CORROSION_RATES material (1/10) / 1000 * age)) (1/100)) * 10 ^ 4) : ℚ) := by
    exact_mod_cast le_trans hfloor hrhe
  linarith

theorem reduction_le (material : String) (age initial_diameter : ℚ) (hage : 0 ≤ age) :
    calculate_pipe_diameter_reduction material age initial_diameter ≤
      max initial_diameter (1/100) + 1/20000 := by
  unfold calculate_pipe_diameter_reduction pyRoundQ
  have hloss : 0 ≤ 2 * (dictGet CORROSION_RATES material (1/10) / 1000 * age) := by
    have := corrosion_rate_nonneg material
    positivity
  have hx : max (initial_diameter - 2 * (dictGet CORROSION_RATES material (1/10) / 1000 * age)) (1/100) ≤
      max initial_diameter (1/100) :=
    max_le_max (by linarith) le_rfl
  have hrhe := pyRoundHalfEvenQ_le
    ((max (initial_diameter - 2 * (dictGet CORROSION_RATES material (1/10) / 1000 * age)) (1/100)) * 10 ^ 4)
  rw [div_le_iff (by norm_num : (0:ℚ) < 10 ^ 4)]
  linarith

theorem reduction_pos_real (material : String) (age initial_diameter : ℚ) :
    (0:ℝ) < ((calculate_pipe_diameter_reduction material age initial_diameter : ℚ) : ℝ) := by
  have h := reduction_ge material age initial_diameter
  have h2 : ((1/100 : ℚ) : ℝ) ≤ ((calculate_pipe_diameter_reduction material age initial_diameter : ℚ) : ℝ) := by
    exact_mod_cast h
  norm_num at h2
  linarith

/-! ## Unfolding main on well-formed slope lists -/

theorem main_eq_of_nonneg (material : String) (age initial_diameter : ℚ)
    (total_distance : ℝ) (slopes pumps : List (ℝ × ℝ)) (hne : slopes ≠ [])
    (hnn : ∀ seg ∈ slopes, (0:ℝ) ≤ seg.1) :
    main material age initial_diameter total_distance slopes pumps =
      some { pipe_material := material, pipe_age := age,
             initial_diameter_meters := initial_diameter,
             reduced_diameter_meters := calculate_pipe_diameter_reduction material age initial_diameter,
             total_distance_meters := total_distance,
             travel_time_seconds := apply_pumps
               ((slopes.map (segment_time
                  ((calculate_pipe_diameter_reduction material age initial_diameter : ℚ) : ℝ)
                  (dictGet ROUGHNESS_COEFFICIENTS material 100))).sum) pumps } := by
  obtain ⟨seg0, rest, rfl⟩ := List.exists_cons_of_ne_nil hne
  have hd := reduction_pos_real material age initial_diameter
  have hsome : ∀ seg ∈ seg0 :: rest,
      (calculate_velocity ((calculate_pipe_diameter_reduction material age initial_diameter : ℚ) : ℝ)
        seg.1 (dictGet ROUGHNESS_COEFFICIENTS material 100)).isSome :=
    fun seg hseg => calculate_velocity_isSome _ _ _ hd (hnn seg hseg)
  have h0 := hsome seg0 (List.mem_cons_self seg0 rest)
  rcases Option.isSome_iff_exists.mp h0 with ⟨v0, hv0⟩
  unfold main
  dsimp only
  rw [hv0]
  rw [accumulate_segments_eq _ _ _ _ hsome]
  rw [EReal.coe_zero, zero_add]

/-! ## Concrete evaluations -/

theorem rough_Steel : dictGet ROUGHNESS_COEFFICIENTS "Steel" 100 = 120 := by
  simp [dictGet, ROUGHNESS_COEFFICIENTS, List.find?]

theorem corr_Steel : dictGet CORROSION_RATES "Steel" (1/10) = 1/5 := by
  simp [dictGet, CORROSION_RATES, List.find?]

theorem rough_CastIron : dictGet ROUGHNESS_COEFFICIENTS "Cast Iron" 100 = 100 := by
  simp [dictGet, ROUGHNESS_COEFFICIENTS, List.find?]

theorem corr_CastIron : dictGet CORROSION_RATES "Cast Iron" (1/10) = 1/10 := by
  simp [dictGet, CORROSION_RATES, List.find?]

theorem reduction_Steel_0_1 : calculate_pipe_diameter_reduction "Steel" 0 1 = 1 := by
  rw [calculate_pipe_diameter_reduction, corr_Steel]
  norm_num [pyRoundQ, pyRoundHalfEvenQ, Int.fract]

theorem reduction_Steel_10_half : calculate_pipe_diameter_reduction "Steel" 10 (1/2) = 62/125 := by
  rw [calculate_pipe_diameter_reduction, corr_Steel]
  norm_num [pyRoundQ, pyRoundHalfEvenQ, Int.fract]

theorem reduction_Steel_0_12344 :
    calculate_pipe_diameter_reduction "Steel" 0 (1543/12500) = 617/5000 := by
  rw [calculate_pipe_diameter_reduction, corr_Steel]
  norm_num [pyRoundQ, pyRoundHalfEvenQ, Int.fract]

theorem reduction_Steel_0_tiny : calculate_pipe_diameter_reduction "Steel" 0 (1/200) = 1/100 := by
  rw [calculate_pipe_diameter_reduction, corr_Steel]
  norm_num [pyRoundQ, pyRoundHalfEvenQ, Int.fract]

theorem segment_time_unit (L : ℝ) :
    segment_time 1 120 (1, L) = ((L / (11/20) : ℝ) : EReal) := by
  unfold segment_time
  rw [calculate_velocity_1_1_120]
  norm_num

theorem segment_time_zero_slope (diameter roughness L : ℝ) :
    segment_time diameter roughness (0, L) = (⊤ : EReal) := by
  unfold segment_time
  rw [show calculate_velocity diameter 0 roughness = some 0 by simp [calculate_velocity]]
  norm_num

/-! ## Claims -/

/-- C1, corrected: the effective diameter is not exactly
max(initialDiameter - 2 * (rate/1000) * age, 0.01) but that value rounded to
the nearest 0.0001 (ties to even): it always lies on the 0.0001 grid within
1/20000 of the unrounded value, and the Steel/age 10/0.5 m scenario yields
exactly 0.496 m = 62/125. -/
theorem claim_C1_amended :
    (∀ (material : String) (age initial_diameter : ℚ),
      (∃ k : ℤ, calculate_pipe_diameter_reduction material age initial_diameter = (k : ℚ) / 10 ^ 4) ∧
      |calculate_pipe_diameter_reduction material age initial_diameter -
        max (initial_diameter - 2 * (dictGet CORROSION_RATES material (1/10) / 1000) * age)
          (1/100)| ≤ 1/20000) ∧
    calculate_pipe_diameter_reduction "Steel" 10 (1/2) = 62/125 := by
  constructor
  · intro material age d0
    have harg : max (d0 - 2 * (dictGet CORROSION_RATES material (1/10) / 1000) * age) (1/100) =
        max (d0 - 2 * (dictGet CORROSION_RATES material (1/10) / 1000 * age)) (1/100) := by
      rw [mul_assoc]
    constructor
    · exact ⟨pyRoundHalfEvenQ
        ((max (d0 - 2 * (dictGet CORROSION_RATES material (1/10) / 1000 * age)) (1/100)) * 10 ^ 4),
        rfl⟩
    · rw [harg]
      have hge := pyRoundHalfEvenQ_ge
        ((max (d0 - 2 * (dictGet CORROSION_RATES material (1/10) / 1000 * age)) (1/100)) * 10 ^ 4)
      have hle := pyRoundHalfEvenQ_le
        ((max (d0 - 2 * (dictGet CORROSION_RATES material (1/10) / 1000 * age)) (1/100)) * 10 ^ 4)
      unfold calculate_pipe_diameter_reduction pyRoundQ
      rw [abs_le]
      constructor <;> [linarith; linarith]
  · exact reduction_Steel_10_half

/-- C1 counterexample: at material Steel, age 0, initial diameter
0.12344 m = 1543/12500 the code returns 0.1234 (the 4-decimal rounding of
line 53), not the exact max(...) = 0.12344 the claim asserts. -/
theorem claim_C1_cex :
    calculate_pipe_diameter_reduction "Steel" 0 (1543/12500) ≠
      max ((1543/12500) - 2 * (dictGet CORROSION_RATES "Steel" (1/10) / 1000) * 0) (1/100) := by
  rw [reduction_Steel_0_12344, corr_Steel]
  norm_num

/-- C2, corrected: the effective diameter is always at least 0.01, but it is
bounded above only by max(initialDiameter, 0.01) + 1/20000, not by
initialDiameter itself: the 0.01 floor exceeds any smaller initial diameter
and the 4-decimal rounding can round upward. -/
theorem claim_C2_amended (material : String) (age initial_diameter : ℚ) (hage : 0 ≤ age) :
    1/100 ≤ calculate_pipe_diameter_reduction material age initial_diameter ∧
    calculate_pipe_diameter_reduction material age initial_diameter ≤
      max initial_diameter (1/100) + 1/20000 :=
  ⟨reduction_ge material age initial_diameter, reduction_le material age initial_diameter hage⟩

theorem claim_C2_witness :
    (0:ℚ) ≤ 10 ∧
    (1/100 ≤ calculate_pipe_diameter_reduction "Steel" 10 (1/2) ∧
      calculate_pipe_diameter_reduction "Steel" 10 (1/2) ≤ max (1/2) (1/100) + 1/20000) :=
  ⟨by norm_num, claim_C2_amended "Steel" 10 (1/2) (by norm_num)⟩

/-- C2 counterexample: with initial diameter 0.005 m = 1/200 (> 0) and age 0
the result is the floor 0.01, which exceeds the initial diameter, refuting
effectiveDiameter <= initialDiameterMeters. -/
theorem claim_C2_cex : ¬ (calculate_pipe_diameter_reduction "Steel" 0 (1/200) ≤ 1/200) := by
  rw [reduction_Steel_0_tiny]
  norm_num

/-- C3, corrected: slope = 0 returns exactly 0 with no error, but a strictly
negative slope does not return 0: the unguarded slope ** 0.54 produces a
complex value in Python 3 and round(V, 2) raises a TypeError, so only
slope = 0 is the defined boundary case. -/
theorem claim_C3_amended :
    (∀ diameter roughness : ℝ, calculate_velocity diameter 0 roughness = some 0) ∧
    (∀ diameter slope roughness : ℝ, slope < 0 →
      calculate_velocity diameter slope roughness = none) := by
  constructor
  · intro d C
    simp [calculate_velocity]
  · intro d s C h
    rw [calculate_velocity, if_neg h.ne, if_pos h]

theorem claim_C3_witness :
    calculate_velocity 1 0 100 = some 0 ∧ calculate_velocity 1 (-1) 100 = none :=
  ⟨claim_C3_amended.1 1 100, claim_C3_amended.2 1 (-1) 100 (by norm_num)⟩

/-- C3 counterexample: diameter 1 > 0, roughness 100, slope -1 <= 0: the call
raises (none), it does not return 0. -/
theorem claim_C3_cex : (0:ℝ) < 1 ∧ calculate_velocity 1 (-1) 100 = none := by
  refine ⟨by norm_num, ?_⟩
  rw [calculate_velocity, if_neg (by norm_num), if_pos (by norm_num)]

/-- C7, corrected: velocity is monotonically non-decreasing in slope for
fixed positive diameter and roughness, but not strictly increasing: the
2-decimal rounding of line 45 collapses distinct slopes to equal outputs. -/
theorem claim_C7_amended (diameter roughness s1 s2 : ℝ) (hd : 0 < diameter)
    (hC : 0 < roughness) (h1 : 0 < s1) (h12 : s1 ≤ s2) :
    ∃ v1 v2, calculate_velocity diameter s1 roughness = some v1 ∧
      calculate_velocity diameter s2 roughness = some v2 ∧ v1 ≤ v2 := by
  refine ⟨_, _, calculate_velocity_of_pos _ _ _ hd h1,
    calculate_velocity_of_pos _ _ _ hd (lt_of_lt_of_le h1 h12), ?_⟩
  apply pyRoundR_mono
  unfold specFullPrecisionVelocity
  have hnum : roughness * diameter ^ (2.63:ℝ) * s1 ^ (0.54:ℝ) / 278.5 ≤
      roughness * diameter ^ (2.63:ℝ) * s2 ^ (0.54:ℝ) / 278.5 := by
    apply (div_le_div_right (by norm_num : (0:ℝ) < 278.5)).mpr
    exact mul_le_mul_of_nonneg_left (Real.rpow_le_rpow h1.le h12 (by norm_num)) (by positivity)
  exact (div_le_div_right (by positivity)).mpr hnum

theorem claim_C7_witness :
    (0:ℝ) < 1 ∧ (0:ℝ) < 120 ∧ (0:ℝ) < 1 ∧ (1:ℝ) ≤ 2 ∧
    ∃ v1 v2, calculate_velocity 1 1 120 = some v1 ∧
      calculate_velocity 1 2 120 = some v2 ∧ v1 ≤ v2 :=
  ⟨by norm_num, by norm_num, by norm_num, by norm_num,
    claim_C7_amended 1 120 1 2 (by norm_num) (by norm_num) (by norm_num) (by norm_num)⟩

/-- C7 counterexample: with diameter 1, roughness 120 and the distinct slopes
1e-6 < 2e-6 both velocities round to 0.00, so strict monotonicity fails. -/
theorem claim_C7_cex :
    (1/1000000 : ℝ) < 2/1000000 ∧
    calculate_velocity 1 (1/1000000) 120 = some 0 ∧
    calculate_velocity 1 (2/1000000) 120 = some 0 :=
  ⟨by norm_num, calculate_velocity_small _ (by norm_num) (by norm_num),
    calculate_velocity_small _ (by norm_num) (by norm_num)⟩

/-- C5, confirmed: the pump pass performs one literal subtraction of each
pump's flow-rate boost from the running total, in input order (equivalently,
it subtracts the sum of the boosts), and a boost of 0.05 applied to an
accumulated total of 120.0 s gives 119.95 s. -/
theorem claim_C5 :
    (∀ (t : EReal) (pumps : List (ℝ × ℝ)),
      apply_pumps t pumps = t - (((pumps.map Prod.fst).sum : ℝ) : EReal)) ∧
    apply_pumps (((120:ℝ)) : EReal) [((5/100 : ℝ), (500:ℝ))] = (((2399/20 : ℝ)) : EReal) := by
  constructor
  · intro t pumps
    exact apply_pumps_eq_sub pumps t
  · rw [apply_pumps_eq_sub]
    simp only [List.map_cons, List.map_nil, List.sum_cons, List.sum_nil, add_zero]
    rw [← EReal.coe_sub, EReal.coe_eq_coe_iff]
    norm_num

/-- C9, confirmed: pump positions are never read by the traversal; two pump
lists with the same flow rates in the same order (arbitrary positions) give
identical results. -/
theorem claim_C9 (material : String) (age initial_diameter : ℚ) (total_distance : ℝ)
    (slopes pumps1 pumps2 : List (ℝ × ℝ)) (h : pumps1.map Prod.fst = pumps2.map Prod.fst) :
    main material age initial_diameter total_distance slopes pumps1 =
      main material age initial_diameter total_distance slopes pumps2 := by
  have hap : ∀ t : EReal, apply_pumps t pumps1 = apply_pumps t pumps2 := by
    intro t
    rw [apply_pumps_eq_sub, apply_pumps_eq_sub, h]
  unfold main
  dsimp only
  simp only [hap]

theorem claim_C9_witness :
    main "Steel" 1 (1/2) 100 [((1/100 : ℝ), (100:ℝ))] [((5/100 : ℝ), (5:ℝ))] =
      main "Steel" 1 (1/2) 100 [((1/100 : ℝ), (100:ℝ))] [((5/100 : ℝ), (999:ℝ))] :=
  claim_C9 "Steel" 1 (1/2) 100 _ _ _ (by simp)

/-- C10, confirmed: no lower bound of zero is enforced; a valid route (slope
1 > 0, length 1 > 0) with a pump boost of 1000 (exceeding the accumulated
20/11 seconds) yields a strictly negative total travel time. -/
theorem claim_C10 :
    ∃ r, main "Steel" 0 1 1 [((1:ℝ), (1:ℝ))] [((1000:ℝ), (0:ℝ))] = some r ∧
      r.travel_time_seconds = (((20/11 - 1000 : ℝ)) : EReal) ∧ r.travel_time_seconds < 0 := by
  have hmain := main_eq_of_nonneg "Steel" 0 1 1 [((1:ℝ), (1:ℝ))] [((1000:ℝ), (0:ℝ))]
    (by simp)
    (by
      intro seg hseg
      simp only [List.mem_singleton] at hseg
      subst hseg
      norm_num)
  rw [reduction_Steel_0_1, rough_Steel] at hmain
  simp only [Rat.cast_one, List.map_cons, List.map_nil, List.sum_cons, List.sum_nil,
    add_zero] at hmain
  rw [segment_time_unit, apply_pumps_eq_sub] at hmain
  simp only [List.map_cons, List.map_nil, List.sum_cons, List.sum_nil, add_zero,
    ← EReal.coe_sub] at hmain
  refine ⟨_, hmain, ?_, ?_⟩
  · show ((1 / (11/20) - 1000 : ℝ) : EReal) = (((20/11 - 1000 : ℝ)) : EReal)
    rw [EReal.coe_eq_coe_iff]
    norm_num
  · show ((1 / (11/20) - 1000 : ℝ) : EReal) < 0
    rw [← EReal.coe_zero, EReal.coe_lt_coe_iff]
    norm_num

/-- C4, corrected: a segment whose computed velocity is not greater than 0
does make its segment time and the whole total positive infinity and is not
skipped, but only provided every slope on the route is nonnegative (so that
no velocity computation raises); a negative-slope companion segment makes
the whole traversal raise instead of returning infinity. -/
theorem claim_C4_amended (material : String) (age initial_diameter : ℚ) (total_distance : ℝ)
    (slopes pumps : List (ℝ × ℝ)) (hnn : ∀ seg ∈ slopes, (0:ℝ) ≤ seg.1)
    (hbad : ∃ seg ∈ slopes, ∃ v,
      calculate_velocity ((calculate_pipe_diameter_reduction material age initial_diameter : ℚ) : ℝ)
        seg.1 (dictGet ROUGHNESS_COEFFICIENTS material 100) = some v ∧ v ≤ 0) :
    ∃ r, main material age initial_diameter total_distance slopes pumps = some r ∧
      r.travel_time_seconds = ⊤ := by
  obtain ⟨seg, hmem, v, hv, hv0⟩ := hbad
  have hne : slopes ≠ [] := by
    intro hnil
    rw [hnil] at hmem
    exact List.not_mem_nil seg hmem
  refine ⟨_, main_eq_of_nonneg material age initial_diameter total_distance slopes pumps hne hnn, ?_⟩
  have hseg_top : segment_time
      ((calculate_pipe_diameter_reduction material age initial_diameter : ℚ) : ℝ)
      (dictGet ROUGHNESS_COEFFICIENTS material 100) seg = ⊤ := by
    unfold segment_time
    rw [hv]
    exact if_neg (not_lt.mpr hv0)
  have hsum : (slopes.map (segment_time
      ((calculate_pipe_diameter_reduction material age initial_diameter : ℚ) : ℝ)
      (dictGet ROUGHNESS_COEFFICIENTS material 100))).sum = (⊤ : EReal) := by
    apply ereal_sum_eq_top
    · exact List.mem_map.mpr ⟨seg, hmem, hseg_top⟩
    · intro x hx
      obtain ⟨s, hs, rfl⟩ := List.mem_map.mp hx
      exact segment_time_ne_bot _ _ _
  show apply_pumps _ pumps = ⊤
  rw [hsum, apply_pumps_eq_sub, EReal.top_sub_coe]

theorem claim_C4_witness :
    ∃ r, main "Steel" 0 1 1000 [((0:ℝ), (1000:ℝ))] [] = some r ∧
      r.travel_time_seconds = ⊤ :=
  claim_C4_amended "Steel" 0 1 1000 [((0:ℝ), (1000:ℝ))] []
    (by
      intro seg hseg
      simp only [List.mem_singleton] at hseg
      subst hseg
      norm_num)
    ⟨((0:ℝ), (1000:ℝ)), by simp, 0, by simp [calculate_velocity], le_refl 0⟩

/-- C4 counterexample: on the route [slope 0 for 1000 m, slope -1 for 5 m]
the claim asserts an infinite total regardless of the other segments, but
the code raises on the negative-slope segment (TypeError from rounding a
complex velocity), producing no total at all. -/
theorem claim_C4_cex :
    main "Steel" 0 1 1005 [((0:ℝ), (1000:ℝ)), ((-1:ℝ), (5:ℝ))] [] = none := by
  unfold main
  dsimp only
  rw [show calculate_velocity ((calculate_pipe_diameter_reduction "Steel" 0 1 : ℚ) : ℝ) (0:ℝ)
      (dictGet ROUGHNESS_COEFFICIENTS "Steel" 100) = some 0 by simp [calculate_velocity]]
  rw [accumulate_segments]
  rw [show calculate_velocity ((calculate_pipe_diameter_reduction "Steel" 0 1 : ℚ) : ℝ) ((0:ℝ),(1000:ℝ)).1
      (dictGet ROUGHNESS_COEFFICIENTS "Steel" 100) = some 0 by simp [calculate_velocity]]
  dsimp only
  rw [accumulate_segments]
  rw [show calculate_velocity ((calculate_pipe_diameter_reduction "Steel" 0 1 : ℚ) : ℝ) (((-1:ℝ),(5:ℝ))).1
      (dictGet ROUGHNESS_COEFFICIENTS "Steel" 100) = none by
    rw [calculate_velocity, if_neg (by norm_num), if_pos (by norm_num)]]

/-- C6, corrected: for a route whose slopes are all positive the accumulated
travel time uses the velocity ROUNDED to 2 decimal places (round is applied
inside calculate_velocity, line 45, before the division on line 111), not
the full-precision Hazen-Williams velocity: each segment contributes
length / round2(V_full) (infinity when the rounded velocity is 0), and the
pump subtraction acts on that sum. -/
theorem claim_C6_amended (material : String) (age initial_diameter : ℚ) (total_distance : ℝ)
    (slopes pumps : List (ℝ × ℝ)) (hne : slopes ≠ []) (hpos : ∀ seg ∈ slopes, (0:ℝ) < seg.1) :
    ∃ r, main material age initial_diameter total_distance slopes pumps = some r ∧
      r.travel_time_seconds = apply_pumps
        ((slopes.map (fun seg =>
          if 0 < pyRoundR 2 (specFullPrecisionVelocity
              ((calculate_pipe_diameter_reduction material age initial_diameter : ℚ) : ℝ) seg.1
              (dictGet ROUGHNESS_COEFFICIENTS material 100))
          then (((seg.2 / pyRoundR 2 (specFullPrecisionVelocity
              ((calculate_pipe_diameter_reduction material age initial_diameter : ℚ) : ℝ) seg.1
              (dictGet ROUGHNESS_COEFFICIENTS material 100)) : ℝ)) : EReal)
          else (⊤ : EReal))).sum) pumps := by
  refine ⟨_, main_eq_of_nonneg material age initial_diameter total_distance slopes pumps hne
    (fun seg hseg => (hpos seg hseg).le), ?_⟩
  show apply_pumps _ pumps = _
  congr 1
  congr 1
  apply List.map_congr_left
  intro seg hseg
  unfold segment_time
  rw [calculate_velocity_of_pos _ _ _ (reduction_pos_real material age initial_diameter)
    (hpos seg hseg)]

theorem claim_C6_witness :
    ∃ r, main "Steel" 0 1 100 [((1:ℝ), (100:ℝ))] [] = some r ∧
      r.travel_time_seconds = apply_pumps
        (([((1:ℝ), (100:ℝ))].map (fun seg =>
          if 0 < pyRoundR 2 (specFullPrecisionVelocity
              ((calculate_pipe_diameter_reduction "Steel" 0 1 : ℚ) : ℝ) seg.1
              (dictGet ROUGHNESS_COEFFICIENTS "Steel" 100))
          then (((seg.2 / pyRoundR 2 (specFullPrecisionVelocity
              ((calculate_pipe_diameter_reduction "Steel" 0 1 : ℚ) : ℝ) seg.1
              (dictGet ROUGHNESS_COEFFICIENTS "Steel" 100)) : ℝ)) : EReal)
          else (⊤ : EReal))).sum) [] :=
  claim_C6_amended "Steel" 0 1 100 [((1:ℝ), (100:ℝ))] [] (by simp)
    (by
      intro seg hseg
      simp only [List.mem_singleton] at hseg
      subst hseg
      norm_num)

/-- C6 counterexample: on the single-segment route (slope 1, length 100) with
Steel, age 0, diameter 1 the code returns 100 / 0.55 = 2000/11 seconds
(velocity rounded to 2 decimals before the division), which differs from
100 divided by the full-precision velocity: equality would force pi to be
the rational 960000/306350, contradicting pi > 3.141592. -/
theorem claim_C6_cex :
    (main "Steel" 0 1 100 [((1:ℝ), (100:ℝ))] []).map TraversalResult.travel_time_seconds ≠
      some (((100 / specFullPrecisionVelocity 1 1 120 : ℝ)) : EReal) := by
  have hmain := main_eq_of_nonneg "Steel" 0 1 100 [((1:ℝ), (100:ℝ))] [] (by simp)
    (by
      intro seg hseg
      simp only [List.mem_singleton] at hseg
      subst hseg
      norm_num)
  rw [reduction_Steel_0_1, rough_Steel] at hmain
  simp only [Rat.cast_one, List.map_cons, List.map_nil, List.sum_cons, List.sum_nil,
    add_zero] at hmain
  rw [segment_time_unit] at hmain
  rw [hmain]
  simp only [Option.map_some']
  intro hc
  have heq : (100 / (11/20) : ℝ) = 100 / specFullPrecisionVelocity 1 1 120 := by
    have := Option.some.inj hc
    exact EReal.coe_eq_coe_iff.mp this
  rw [spec_velocity_1_1_120] at heq
  have hpi := Real.pi_gt_d6
  have hne1 : (278.5 : ℝ) * Real.pi ≠ 0 := by positivity
  have hne2 : (480 : ℝ) / (278.5 * Real.pi) ≠ 0 := by positivity
  rw [div_eq_div_iff (by norm_num) (by positivity)] at heq
  field_simp at heq
  nlinarith [heq, hpi]

theorem dictGet_of_unknown {α : Type} (table : List (String × α)) (key : String) (dflt : α)
    (h : ∀ p ∈ table, p.1 ≠ key) : dictGet table key dflt = dflt := by
  unfold dictGet
  rw [List.find?_eq_none.mpr (fun p hp => by simpa [beq_iff_eq] using h p hp)]
  rfl

/-- C8, confirmed: an unrecognized material tag never makes the traversal
fail: the dict.get defaults substitute the Cast Iron constants (roughness
100, corrosion rate 0.1 mm/yr) in both computations, and the run is
identical to a Cast Iron run except for the recorded material name. -/
theorem claim_C8 (material : String)
    (h : material ∉ ["Cast Iron", "Ductile Iron", "Steel", "Galvanized Steel",
      "Stainless Steel", "Copper", "PVC/Plastic", "Concrete"]) :
    dictGet ROUGHNESS_COEFFICIENTS material 100 = 100 ∧
    dictGet CORROSION_RATES material (1/10) = 1/10 ∧
    ∀ (age initial_diameter : ℚ) (total_distance : ℝ) (slopes pumps : List (ℝ × ℝ)),
      main material age initial_diameter total_distance slopes pumps =
        (main "Cast Iron" age initial_diameter total_distance slopes pumps).map
          (fun r => { r with pipe_material := material }) := by
  have hR : dictGet ROUGHNESS_COEFFICIENTS material 100 = 100 := by
    apply dictGet_of_unknown
    intro p hp
    simp only [ROUGHNESS_COEFFICIENTS, List.mem_cons, List.not_mem_nil, or_false] at hp
    rcases hp with rfl | rfl | rfl | rfl | rfl | rfl | rfl | rfl <;>
      (intro he; apply h; rw [← he]; simp)
  have hC : dictGet CORROSION_RATES material (1/10) = 1/10 := by
    apply dictGet_of_unknown
    intro p hp
    simp only [CORROSION_RATES, List.mem_cons, List.not_mem_nil, or_false] at hp
    rcases hp with rfl | rfl | rfl | rfl | rfl | rfl | rfl | rfl <;>
      (intro he; apply h; rw [← he]; simp)
  refine ⟨hR, hC, ?_⟩
  intro age initial_diameter total_distance slopes pumps
  have hred : calculate_pipe_diameter_reduction material age initial_diameter =
      calculate_pipe_diameter_reduction "Cast Iron" age initial_diameter := by
    unfold calculate_pipe_diameter_reduction
    rw [hC, corr_CastIron]
  unfold main
  dsimp only
  rw [hR, rough_CastIron, hred]
  cases slopes with
  | nil => rfl
  | cons seg0 rest =>
    dsimp only
    cases hv : calculate_velocity
        ((calculate_pipe_diameter_reduction "Cast Iron" age initial_diameter : ℚ) : ℝ)
        seg0.1 100 with
    | none => rfl
    | some v =>
      dsimp only
      cases ha : accumulate_segments
          ((calculate_pipe_diameter_reduction "Cast Iron" age initial_diameter : ℚ) : ℝ)
          100 (seg0 :: rest) ((0:ℝ) : EReal) with
      | none => rfl
      | some total0 => rfl

theorem claim_C8_witness :
    dictGet ROUGHNESS_COEFFICIENTS "Adamantium" 100 = 100 ∧
    dictGet CORROSION_RATES "Adamantium" (1/10) = 1/10 ∧
    main "Adamantium" 5 (1/2) 10 [((1:ℝ), (10:ℝ))] [] =
      (main "Cast Iron" 5 (1/2) 10 [((1:ℝ), (10:ℝ))] []).map
        (fun r => { r with pipe_material := "Adamantium" }) := by
  have h := claim_C8 "Adamantium" (by simp)
  exact ⟨h.1, h.2.1, h.2.2 5 (1/2) 10 [((1:ℝ), (10:ℝ))] []⟩
